import Mathlib

/-!
# Verification of the CARLA map-layer streaming & object-registration controller

Shallow embedding of the relevant parts of
`Unreal/CarlaUE4/Plugins/Carla/Source/Carla/Game/CarlaGameModeBase.cpp`:

* `ConvertMapLayerMaskToMapNames` — the bit walk over the layer mask and the
  substring matching pass against the streaming sub-levels of the world;
* `LoadMapLayer` / `UnLoadMapLayer` — issuing of asynchronous streaming
  requests and (re)setting of the pending counters;
* `OnLoadStreamLevel` / `OnUnloadStreamLevel` — the per-operation completion
  callbacks, decrementing the counters and gating the registration pass;
* `BeginPlay` — the readiness signal (restricted to the statements that touch
  the controller state).

The layer enumeration itself (`carla/rpc/MapLayer.h`) is not part of the
excerpt; it is modelled from the specification as an abstract list of
canonical layer-name fragments, one per bit position, with the `All` mask
being the union of all defined layer bits.

State fields of the C++ class (`PendingLevelsToLoad`, `PendingLevelsToUnLoad`,
`ReadyToRegisterObjects`, all `int32`/`bool`) are carried in a `GameMode`
structure together with observation instrumentation: counters for the calls to
`RegisterEnvironmentObjects` and `ATagger::TagActorsInLevel`, and the lists of
issued streaming operations.
-/

namespace CarlaGameMode

/-! ## String primitives

Embeddings of the `FString` operations used by the controller:
`Contains` (case-insensitive substring search, the UE4 default) and
`ParseIntoArray` on `"/"` with empty parts kept.  They are written over
`List Char` so that concrete instances reduce in the kernel. -/

/-- `startsWithChars needle hay`: `needle` is a prefix of `hay`. -/
def startsWithChars : List Char → List Char → Bool
  | [], _ => true
  | _ :: _, [] => false
  | a :: as, b :: bs => a == b && startsWithChars as bs

/-- `hasSubChars needle hay`: `needle` occurs contiguously inside `hay`. -/
def hasSubChars : List Char → List Char → Bool
  | needle, [] => startsWithChars needle []
  | needle, c :: cs => startsWithChars needle (c :: cs) || hasSubChars needle cs

/-- Lower-casing of a character sequence, as `FString::Contains` compares
case-insensitively by default. -/
def lowerChars (s : List Char) : List Char := s.map Char.toLower

/-- Embedding of `SubMapName.Contains(LayerName)` (UE4 `FString::Contains`,
default `ESearchCase::IgnoreCase`). -/
def ueContains (hay needle : String) : Bool :=
  hasSubChars (lowerChars needle.data) (lowerChars hay.data)

/-- Split on `'/'`, keeping empty parts — the behaviour of
`FString::ParseIntoArray(StringArray, TEXT("/"), false)`. -/
def splitSlash : List Char → List (List Char)
  | [] => [[]]
  | c :: cs =>
    let r := splitSlash cs
    if c == '/' then [] :: r
    else (c :: r.headD []) :: r.tail

/-- The short sub-map name: the last path component of the full package name
(`StringArray[StringArray.Num() - 1]` after the parse). -/
def shortName (full : String) : String :=
  String.mk ((splitSlash full.data).getLastD [])

/-! ## The layer enumeration (modelled from the spec)

`carla/rpc/MapLayer.h` is not part of the excerpt.  Following the spec, the
enumeration is a fixed list `frags` of canonical layer-name fragments, bit `i`
of a mask denoting the layer named `frags[i]`, and the distinguished `All`
mask being the union of all defined layer bits. -/

/-- Modelled from the spec: `carla::rpc::MapLayer::All`, the union of all
defined layer bits of the enumeration `frags`. -/
def allLayersMask (frags : List String) : Nat := 2 ^ frags.length - 1

/-- Modelled from the spec: `carla::rpc::MapLayerToString`, mapping a
single-bit layer value `v = 2 ^ i` of the enumeration to its canonical
name fragment `frags[i]`; values outside the enumeration yield a fragment
that names no layer. -/
def MapLayerToString (frags : List String) (v : Nat) : String :=
  match (List.range frags.length).find? (fun i => v == 2 ^ i) with
  | some i => frags.getD i "Invalid"
  | none => "Invalid"

/-! ## ConvertMapLayerMaskToMapNames -/

/-- The `while(LayerMask > 0)` bit walk of `ConvertMapLayerMaskToMapNames`
(lines 434–447): starting from `LayerMask = 1`, emit the fragment of every
bit set in `MapLayer`, advancing by `LayerMask = (LayerMask << 1) & All`.
The walk visits the bit values `2^0, …, 2^(n-1)` and then reaches `0`, so the
`fuel` argument (instantiated with `n + 1` at the entry point) never runs
out before the loop condition fails. -/
def collectLoop (frags : List String) (mapLayer : Nat) : Nat → Nat → List String
  | _, 0 => []
  | layerMask, fuel + 1 =>
    if 0 < layerMask then
      (if mapLayer &&& layerMask ≠ 0 then [MapLayerToString frags layerMask] else [])
        ++ collectLoop frags mapLayer ((layerMask <<< 1) &&& allLayersMask frags) fuel
    else []

/-- The list `LayersToLoad` collected by the bit walk. -/
def collectLayers (frags : List String) (mapLayer : Nat) : List String :=
  collectLoop frags mapLayer 1 (frags.length + 1)

/-- The inner `for(FString LayerName : LayersToLoad) … break` loop of the
matching pass: the first collected fragment contained in the sub-map name,
if any. -/
def firstMatching (subMapName : String) : List String → Option String
  | [] => none
  | layerName :: rest =>
    if ueContains subMapName layerName then some layerName
    else firstMatching subMapName rest

/-- Embedding of `ConvertMapLayerMaskToMapNames(MapLayer, OutLevelNames)`
(lines 427–467).  `levels` is the full package name of each streaming level of
the world (`Level->GetWorldAssetPackageFName().ToString()`), in world order;
`outLevelNames` is the caller-supplied output array, appended to (never
cleared). -/
def ConvertMapLayerMaskToMapNames (frags levels : List String) (mapLayer : Nat)
    (outLevelNames : List String) : List String :=
  let layersToLoad := collectLayers frags mapLayer
  levels.foldl (fun out fullSubMapName =>
    let subMapName := shortName fullSubMapName
    match firstMatching subMapName layersToLoad with
    | some _ => out ++ [subMapName]
    | none => out) outLevelNames

/-! ## Controller state and transitions -/

/-- The controller state of `ACarlaGameModeBase`: the two pending counters
(`int32` in the header, modelled as `Int` — the C++ decrement never reaches
the wrap-around boundary), the readiness gate, plus observation fields
recording the side effects: how many times `RegisterEnvironmentObjects` and
`ATagger::TagActorsInLevel` were invoked, and which streaming operations were
issued. -/
structure GameMode where
  PendingLevelsToLoad : Int
  PendingLevelsToUnLoad : Int
  ReadyToRegisterObjects : Bool
  registerCalls : Nat
  tagCalls : Nat
  issuedLoads : List String
  issuedUnloads : List String
deriving Repr, DecidableEq

/-- The initial controller state (`int32 … = 0`, `bool … = false`). -/
def initialState : GameMode :=
  { PendingLevelsToLoad := 0
    PendingLevelsToUnLoad := 0
    ReadyToRegisterObjects := false
    registerCalls := 0
    tagCalls := 0
    issuedLoads := []
    issuedUnloads := [] }

/-- `RegisterEnvironmentObjects()` (lines 366–372): snapshots the world actors
and rebuilds the registered-object set; observed as one registration call. -/
def RegisterEnvironmentObjects (s : GameMode) : GameMode :=
  { s with registerCalls := s.registerCalls + 1 }

/-- `ATagger::TagActorsInLevel(*GetWorld(), true)`: observed as one tagging
call. -/
def TagActorsInLevel (s : GameMode) : GameMode :=
  { s with tagCalls := s.tagCalls + 1 }

/-- `OnLoadStreamLevel()` (lines 492–502): decrement `PendingLevelsToLoad`;
if `ReadyToRegisterObjects && PendingLevelsToLoad == 0`, register the
environment objects and re-tag the world. -/
def OnLoadStreamLevel (s : GameMode) : GameMode :=
  let s1 := { s with PendingLevelsToLoad := s.PendingLevelsToLoad - 1 }
  if s1.ReadyToRegisterObjects ∧ s1.PendingLevelsToLoad = 0 then
    TagActorsInLevel (RegisterEnvironmentObjects s1)
  else s1

/-- `OnUnloadStreamLevel()` (lines 504–512): decrement `PendingLevelsToUnLoad`;
if `ReadyToRegisterObjects && PendingLevelsToUnLoad == 0`, register the
environment objects (no tagging on the unload path). -/
def OnUnloadStreamLevel (s : GameMode) : GameMode :=
  let s1 := { s with PendingLevelsToUnLoad := s.PendingLevelsToUnLoad - 1 }
  if s1.ReadyToRegisterObjects ∧ s1.PendingLevelsToUnLoad = 0 then
    RegisterEnvironmentObjects s1
  else s1

/-- `LoadMapLayer(MapLayers)` (lines 381–402): resolve the mask to concrete
sub-level names, set `PendingLevelsToLoad` to their number and issue one
`LoadStreamLevel` per name. -/
def LoadMapLayer (frags levels : List String) (mapLayers : Nat) (s : GameMode) :
    GameMode :=
  let levelsToLoad := ConvertMapLayerMaskToMapNames frags levels mapLayers []
  { s with
    PendingLevelsToLoad := (levelsToLoad.length : Int)
    issuedLoads := s.issuedLoads ++ levelsToLoad }

/-- `UnLoadMapLayer(MapLayers)` (lines 404–425): resolve the mask, set
`PendingLevelsToUnLoad` to the number of names and issue one
`UnloadStreamLevel` per name. -/
def UnLoadMapLayer (frags levels : List String) (mapLayers : Nat) (s : GameMode) :
    GameMode :=
  let levelsToUnLoad := ConvertMapLayerMaskToMapNames frags levels mapLayers []
  { s with
    PendingLevelsToUnLoad := (levelsToUnLoad.length : Int)
    issuedUnloads := s.issuedUnloads ++ levelsToUnLoad }

/-- `BeginPlay()` (lines 125–170), restricted to the statements that touch the
controller state, in source order: `LoadMapLayer(GetCurrentMapLayer())`
(line 129), `ReadyToRegisterObjects = true` (line 130), the unconditional
`ATagger::TagActorsInLevel` (line 134), and the final
`if(ReadyToRegisterObjects && PendingLevelsToLoad == 0)
RegisterEnvironmentObjects()` (lines 166–169). -/
def BeginPlay (frags levels : List String) (currentMapLayer : Nat) (s : GameMode) :
    GameMode :=
  let s1 := LoadMapLayer frags levels currentMapLayer s
  let s2 := { s1 with ReadyToRegisterObjects := true }
  let s3 := TagActorsInLevel s2
  if s3.ReadyToRegisterObjects ∧ s3.PendingLevelsToLoad = 0 then
    RegisterEnvironmentObjects s3
  else s3

/-! ## Completion-event traces -/

/-- A completion callback delivered by the streaming subsystem, tagged with
its direction. -/
inductive StreamEvent where
  | load
  | unload
deriving Repr, DecidableEq

/-- Dispatch of one completion callback. -/
def stepEvent (s : GameMode) : StreamEvent → GameMode
  | .load => OnLoadStreamLevel s
  | .unload => OnUnloadStreamLevel s

/-- Dispatch of a sequence of completion callbacks, in arrival order. -/
def runEvents (s : GameMode) (evs : List StreamEvent) : GameMode :=
  evs.foldl stepEvent s

end CarlaGameMode

namespace CarlaGameMode

/-! ## Characterization of the bit walk -/

theorem collectLoop_zero (frags : List String) (m fuel : Nat) :
    collectLoop frags m 0 fuel = [] := by
  cases fuel <;> simp [collectLoop]

theorem MapLayerToString_pow (frags : List String) (k : Nat) (hk : k < frags.length) :
    MapLayerToString frags (2 ^ k) = frags.getD k "Invalid" := by
  unfold MapLayerToString
  have hsome : ((List.range frags.length).find? (fun i => 2 ^ k == 2 ^ i)).isSome = true := by
    rw [List.find?_isSome]
    exact ⟨k, List.mem_range.2 hk, by simp⟩
  rcases Option.isSome_iff_exists.1 hsome with ⟨a, ha⟩
  have hpa := List.find?_some ha
  have hpow : (2 : Nat) ^ k = 2 ^ a := by simpa using hpa
  have hak : a = k := (Nat.pow_right_injective (le_refl 2) hpow.symm)
  rw [ha, hak]

theorem and_two_pow_ne_zero (m k : Nat) :
    (m &&& 2 ^ k ≠ 0) ↔ m.testBit k := by
  rw [Nat.and_two_pow]
  cases h : m.testBit k <;> simp [h, Nat.pow_eq_zero]

/-- The bit walk starting at bit `k` collects the fragments of the set bits of
`m` among positions `k, …, n-1`, in increasing order. -/
theorem collectLoop_spec (frags : List String) (m : Nat) :
    ∀ (fuel k : Nat), k < frags.length → frags.length - k < fuel →
    collectLoop frags m (2 ^ k) fuel =
      ((List.range' k (frags.length - k)).filter (fun i => m.testBit i)).map
        (fun i => frags.getD i "Invalid") := by
  intro fuel
  induction fuel with
  | zero => intro k hk hf; omega
  | succ fuel ih =>
    intro k hk hf
    have hpos : 0 < (2 : Nat) ^ k := Nat.pos_pow_of_pos k (by norm_num)
    rw [collectLoop]
    rw [if_pos hpos]
    have hadv : ((2 ^ k <<< 1) &&& allLayersMask frags) = 2 ^ (k + 1) % 2 ^ frags.length := by
      rw [Nat.shiftLeft_eq, ← Nat.pow_succ, allLayersMask, Nat.and_pow_two_sub_one_eq_mod]
    have hrange : frags.length - k = (frags.length - (k + 1)) + 1 := by omega
    rw [hrange, List.range'_succ k (frags.length - (k+1)) 1, List.filter_cons]
    by_cases hk1 : k + 1 < frags.length
    · have hmod : 2 ^ (k + 1) % 2 ^ frags.length = 2 ^ (k + 1) :=
        Nat.mod_eq_of_lt (Nat.pow_lt_pow_right Nat.one_lt_two hk1)
      rw [hadv, hmod, ih (k+1) hk1 (by omega)]
      by_cases hb : m.testBit k
      · rw [if_pos ((and_two_pow_ne_zero m k).2 hb)]
        rw [MapLayerToString_pow frags k hk]
        simp [hb]
      · rw [if_neg (by simpa [and_two_pow_ne_zero] using hb)]
        simp [hb]
    · have hkeq : k + 1 = frags.length := by omega
      have hmod : 2 ^ (k + 1) % 2 ^ frags.length = 0 := by
        rw [hkeq, Nat.mod_self]
      rw [hadv, hmod, collectLoop_zero]
      have hz : frags.length - (k + 1) = 0 := by omega
      rw [hz]
      by_cases hb : m.testBit k
      · rw [if_pos ((and_two_pow_ne_zero m k).2 hb)]
        rw [MapLayerToString_pow frags k hk]
        simp [hb]
      · rw [if_neg (by simpa [and_two_pow_ne_zero] using hb)]
        simp [hb]

/-- The fragments collected by the bit walk are exactly those of the set bits
of the mask below the enumeration size, visited from the lowest bit upward. -/
theorem collect_spec (frags : List String) (m : Nat) (hf : 0 < frags.length) :
    collectLayers frags m =
      ((List.range frags.length).filter (fun i => m.testBit i)).map
        (fun i => frags.getD i "Invalid") := by
  have h := collectLoop_spec frags m (frags.length + 1) 0 hf (by omega)
  simp only [pow_zero, Nat.sub_zero] at h
  rw [collectLayers, h, ← List.range_eq_range']

/-! ## Characterization of the matching pass -/

theorem firstMatching_isSome (sub : String) (ls : List String) :
    (firstMatching sub ls).isSome = ls.any (fun l => ueContains sub l) := by
  induction ls with
  | nil => rfl
  | cons l rest ih =>
    rw [firstMatching, List.any_cons]
    by_cases h : ueContains sub l
    · simp [h]
    · simp only [Bool.not_eq_true] at h
      simp [h, ih]

/-- The matching pass appends to the caller-supplied array, in sub-level order, the
short name of every level whose short name contains at least one collected
fragment. -/
theorem convert_eq (frags levels : List String) (m : Nat) :
    ∀ out, ConvertMapLayerMaskToMapNames frags levels m out =
      out ++ (levels.filter
        (fun l => (collectLayers frags m).any
          (fun layer => ueContains (shortName l) layer))).map shortName := by
  induction levels with
  | nil => intro out; simp [ConvertMapLayerMaskToMapNames]
  | cons l ls ih =>
    intro out
    have hstep : ConvertMapLayerMaskToMapNames frags (l :: ls) m out =
        ConvertMapLayerMaskToMapNames frags ls m
          (match firstMatching (shortName l) (collectLayers frags m) with
           | some _ => out ++ [shortName l]
           | none => out) := rfl
    rw [hstep]
    cases hfm : firstMatching (shortName l) (collectLayers frags m) with
    | some w =>
      have hany : ((collectLayers frags m).any
          fun layer => ueContains (shortName l) layer) = true := by
        rw [← firstMatching_isSome, hfm]; rfl
      simp only [hfm]
      rw [ih (out ++ [shortName l])]
      simp [List.filter_cons, hany]
    | none =>
      have hany : ((collectLayers frags m).any
          fun layer => ueContains (shortName l) layer) = false := by
        rw [← firstMatching_isSome, hfm]; rfl
      simp only [hfm]
      rw [ih out]
      simp [List.filter_cons, hany]

theorem map_getD_range {α : Type} (l : List α) (d : α) :
    (List.range l.length).map (fun i => l.getD i d) = l := by
  induction l with
  | nil => rfl
  | cons a t ih =>
    rw [List.length_cons, List.range_succ_eq_map, List.map_cons, List.map_map]
    have h2 : ((fun i => (a :: t).getD i d) ∘ Nat.succ) = (fun i => t.getD i d) := by
      funext i
      simp [List.getD]
    rw [h2, ih]
    simp [List.getD]

end CarlaGameMode


namespace CarlaGameMode

/-! ## Completion-callback step lemmas -/



theorem OnLoad_eq (s : GameMode) :
    OnLoadStreamLevel s =
      if s.ReadyToRegisterObjects = true ∧ s.PendingLevelsToLoad = 1 then
        { s with PendingLevelsToLoad := 0,
                 registerCalls := s.registerCalls + 1,
                 tagCalls := s.tagCalls + 1 }
      else { s with PendingLevelsToLoad := s.PendingLevelsToLoad - 1 } := by
  by_cases h : s.ReadyToRegisterObjects = true ∧ s.PendingLevelsToLoad = 1
  · obtain ⟨h1, h2⟩ := h
    simp [OnLoadStreamLevel, RegisterEnvironmentObjects, TagActorsInLevel, h1, h2]
  · rw [if_neg h]
    have hcond : ¬ (s.ReadyToRegisterObjects = true ∧ s.PendingLevelsToLoad - 1 = 0) := by
      intro hc
      exact h ⟨hc.1, by omega⟩
    simp only [OnLoadStreamLevel]
    rw [if_neg hcond]

theorem OnUnload_eq (s : GameMode) :
    OnUnloadStreamLevel s =
      if s.ReadyToRegisterObjects = true ∧ s.PendingLevelsToUnLoad = 1 then
        { s with PendingLevelsToUnLoad := 0,
                 registerCalls := s.registerCalls + 1 }
      else { s with PendingLevelsToUnLoad := s.PendingLevelsToUnLoad - 1 } := by
  by_cases h : s.ReadyToRegisterObjects = true ∧ s.PendingLevelsToUnLoad = 1
  · obtain ⟨h1, h2⟩ := h
    simp [OnUnloadStreamLevel, RegisterEnvironmentObjects, h1, h2]
  · rw [if_neg h]
    have hcond : ¬ (s.ReadyToRegisterObjects = true ∧ s.PendingLevelsToUnLoad - 1 = 0) := by
      intro hc
      exact h ⟨hc.1, by omega⟩
    simp only [OnUnloadStreamLevel]
    rw [if_neg hcond]

theorem OnLoad_pending (s : GameMode) :
    (OnLoadStreamLevel s).PendingLevelsToLoad = s.PendingLevelsToLoad - 1 := by
  rw [OnLoad_eq]
  split
  · next h => simp; omega
  · rfl

theorem OnLoad_ready (s : GameMode) :
    (OnLoadStreamLevel s).ReadyToRegisterObjects = s.ReadyToRegisterObjects := by
  rw [OnLoad_eq]; split <;> rfl

theorem OnLoad_unload_frame (s : GameMode) :
    (OnLoadStreamLevel s).PendingLevelsToUnLoad = s.PendingLevelsToUnLoad ∧
    (OnLoadStreamLevel s).issuedLoads = s.issuedLoads ∧
    (OnLoadStreamLevel s).issuedUnloads = s.issuedUnloads := by
  rw [OnLoad_eq]; split <;> exact ⟨rfl, rfl, rfl⟩

theorem OnLoad_no_fire (s : GameMode) (h : s.PendingLevelsToLoad ≠ 1) :
    (OnLoadStreamLevel s).registerCalls = s.registerCalls ∧
    (OnLoadStreamLevel s).tagCalls = s.tagCalls := by
  rw [OnLoad_eq, if_neg (fun hc => h hc.2)]
  exact ⟨rfl, rfl⟩

theorem OnLoad_fire (s : GameMode) (hr : s.ReadyToRegisterObjects = true)
    (h : s.PendingLevelsToLoad = 1) :
    (OnLoadStreamLevel s).registerCalls = s.registerCalls + 1 ∧
    (OnLoadStreamLevel s).tagCalls = s.tagCalls + 1 ∧
    (OnLoadStreamLevel s).PendingLevelsToLoad = 0 := by
  rw [OnLoad_eq, if_pos ⟨hr, h⟩]
  exact ⟨rfl, rfl, rfl⟩

theorem OnUnload_pending (s : GameMode) :
    (OnUnloadStreamLevel s).PendingLevelsToUnLoad = s.PendingLevelsToUnLoad - 1 := by
  rw [OnUnload_eq]
  split
  · next h => simp; omega
  · rfl

theorem OnUnload_ready (s : GameMode) :
    (OnUnloadStreamLevel s).ReadyToRegisterObjects = s.ReadyToRegisterObjects := by
  rw [OnUnload_eq]; split <;> rfl

theorem OnUnload_load_frame (s : GameMode) :
    (OnUnloadStreamLevel s).PendingLevelsToLoad = s.PendingLevelsToLoad ∧
    (OnUnloadStreamLevel s).issuedLoads = s.issuedLoads ∧
    (OnUnloadStreamLevel s).issuedUnloads = s.issuedUnloads := by
  rw [OnUnload_eq]; split <;> exact ⟨rfl, rfl, rfl⟩

theorem OnUnload_no_fire (s : GameMode) (h : s.PendingLevelsToUnLoad ≠ 1) :
    (OnUnloadStreamLevel s).registerCalls = s.registerCalls ∧
    (OnUnloadStreamLevel s).tagCalls = s.tagCalls := by
  rw [OnUnload_eq, if_neg (fun hc => h hc.2)]
  exact ⟨rfl, rfl⟩

theorem OnUnload_fire (s : GameMode) (hr : s.ReadyToRegisterObjects = true)
    (h : s.PendingLevelsToUnLoad = 1) :
    (OnUnloadStreamLevel s).registerCalls = s.registerCalls + 1 ∧
    (OnUnloadStreamLevel s).tagCalls = s.tagCalls ∧
    (OnUnloadStreamLevel s).PendingLevelsToUnLoad = 0 := by
  rw [OnUnload_eq, if_pos ⟨hr, h⟩]
  exact ⟨rfl, rfl, rfl⟩

theorem runEvents_cons (s : GameMode) (e : StreamEvent) (evs : List StreamEvent) :
    runEvents s (e :: evs) = runEvents (stepEvent s e) evs := rfl

theorem runEvents_append (s : GameMode) (a b : List StreamEvent) :
    runEvents s (a ++ b) = runEvents (runEvents s a) b := by
  unfold runEvents
  exact List.foldl_append _ _ _ _

-- the batch-settling lemma for loads

theorem runLoads_lt (k : Nat) : ∀ (s : GameMode) (N : Nat),
    s.ReadyToRegisterObjects = true → s.PendingLevelsToLoad = (N : Int) → k < N →
    (runEvents s (List.replicate k .load)).PendingLevelsToLoad = (N : Int) - (k : Int) ∧
    (runEvents s (List.replicate k .load)).registerCalls = s.registerCalls ∧
    (runEvents s (List.replicate k .load)).tagCalls = s.tagCalls ∧
    (runEvents s (List.replicate k .load)).ReadyToRegisterObjects = true := by
  induction k with
  | zero =>
    intro s N hr hp hk
    simp [runEvents, hp, hr]
  | succ k ih =>
    intro s N hr hp hk
    rw [List.replicate_succ, runEvents_cons]
    have hstep : stepEvent s .load = OnLoadStreamLevel s := rfl
    rw [hstep]
    have hN1 : s.PendingLevelsToLoad ≠ 1 := by omega
    have hnf := OnLoad_no_fire s hN1
    have hpend := OnLoad_pending s
    have hready := OnLoad_ready s
    have hp' : (OnLoadStreamLevel s).PendingLevelsToLoad = ((N - 1 : Nat) : Int) := by
      rw [hpend, hp]; omega
    have ihh := ih (OnLoadStreamLevel s) (N - 1) (by rw [hready, hr]) hp' (by omega)
    refine ⟨?_, ?_, ?_, ihh.2.2.2⟩
    · rw [ihh.1]; omega
    · rw [ihh.2.1, hnf.1]
    · rw [ihh.2.2.1, hnf.2]

theorem runLoads_settle (s : GameMode) (N : Nat)
    (hr : s.ReadyToRegisterObjects = true) (hp : s.PendingLevelsToLoad = (N : Int))
    (hpos : 1 ≤ N) :
    (runEvents s (List.replicate N .load)).registerCalls = s.registerCalls + 1 ∧
    (runEvents s (List.replicate N .load)).tagCalls = s.tagCalls + 1 ∧
    (runEvents s (List.replicate N .load)).PendingLevelsToLoad = 0 := by
  obtain ⟨M, rfl⟩ : ∃ M, N = M + 1 := ⟨N - 1, by omega⟩
  rw [List.replicate_succ', runEvents_append]
  have h1 := runLoads_lt M s (M + 1) hr hp (by omega)
  set s1 := runEvents s (List.replicate M .load) with hs1
  have hp1 : s1.PendingLevelsToLoad = 1 := by rw [h1.1]; push_cast; omega
  have hf := OnLoad_fire s1 h1.2.2.2 hp1
  have hstep : runEvents s1 [.load] = OnLoadStreamLevel s1 := rfl
  rw [hstep]
  exact ⟨by rw [hf.1, h1.2.1], by rw [hf.2.1, h1.2.2.1], hf.2.2⟩

theorem runUnloads_lt (k : Nat) : ∀ (s : GameMode) (N : Nat),
    s.ReadyToRegisterObjects = true → s.PendingLevelsToUnLoad = (N : Int) → k < N →
    (runEvents s (List.replicate k .unload)).PendingLevelsToUnLoad = (N : Int) - (k : Int) ∧
    (runEvents s (List.replicate k .unload)).registerCalls = s.registerCalls ∧
    (runEvents s (List.replicate k .unload)).tagCalls = s.tagCalls ∧
    (runEvents s (List.replicate k .unload)).ReadyToRegisterObjects = true := by
  induction k with
  | zero =>
    intro s N hr hp hk
    simp [runEvents, hp, hr]
  | succ k ih =>
    intro s N hr hp hk
    rw [List.replicate_succ, runEvents_cons]
    have hstep : stepEvent s .unload = OnUnloadStreamLevel s := rfl
    rw [hstep]
    have hN1 : s.PendingLevelsToUnLoad ≠ 1 := by omega
    have hnf := OnUnload_no_fire s hN1
    have hpend := OnUnload_pending s
    have hready := OnUnload_ready s
    have hp' : (OnUnloadStreamLevel s).PendingLevelsToUnLoad = ((N - 1 : Nat) : Int) := by
      rw [hpend, hp]; omega
    have ihh := ih (OnUnloadStreamLevel s) (N - 1) (by rw [hready, hr]) hp' (by omega)
    refine ⟨?_, ?_, ?_, ihh.2.2.2⟩
    · rw [ihh.1]; omega
    · rw [ihh.2.1, hnf.1]
    · rw [ihh.2.2.1, hnf.2]

theorem runUnloads_settle (s : GameMode) (N : Nat)
    (hr : s.ReadyToRegisterObjects = true) (hp : s.PendingLevelsToUnLoad = (N : Int))
    (hpos : 1 ≤ N) :
    (runEvents s (List.replicate N .unload)).registerCalls = s.registerCalls + 1 ∧
    (runEvents s (List.replicate N .unload)).tagCalls = s.tagCalls ∧
    (runEvents s (List.replicate N .unload)).PendingLevelsToUnLoad = 0 := by
  obtain ⟨M, rfl⟩ : ∃ M, N = M + 1 := ⟨N - 1, by omega⟩
  rw [List.replicate_succ', runEvents_append]
  have h1 := runUnloads_lt M s (M + 1) hr hp (by omega)
  set s1 := runEvents s (List.replicate M .unload) with hs1
  have hp1 : s1.PendingLevelsToUnLoad = 1 := by rw [h1.1]; push_cast; omega
  have hf := OnUnload_fire s1 h1.2.2.2 hp1
  have hstep : runEvents s1 [.unload] = OnUnloadStreamLevel s1 := rfl
  rw [hstep]
  exact ⟨by rw [hf.1, h1.2.1], by rw [hf.2.1, h1.2.2.1], hf.2.2⟩

end CarlaGameMode

namespace CarlaGameMode

/-! ## Claims -/

/-- C5: for every layer mask, the bit walk collects exactly the layer-name
fragments of the bit positions set in both the input mask and the `All` mask,
from the lowest bit upward; set bits of the input mask outside the defined
enumeration (not in `All`) contribute nothing. -/
theorem c5_bit_walk_collects_defined_bits (frags : List String) (m : Nat)
    (hf : 0 < frags.length) :
    collectLayers frags m =
      ((List.range frags.length).filter
        (fun i => m.testBit i && (allLayersMask frags).testBit i)).map
        (fun i => frags.getD i "Invalid") ∧
    collectLayers frags m = collectLayers frags (m &&& allLayersMask frags) := by
  have hAllBit : ∀ i ∈ List.range frags.length, (allLayersMask frags).testBit i = true := by
    intro i hi
    rw [allLayersMask, Nat.testBit_two_pow_sub_one]
    simpa using List.mem_range.1 hi
  constructor
  · rw [collect_spec frags m hf]
    congr 1
    apply List.filter_congr
    intro i hi
    rw [hAllBit i hi]
    simp
  · rw [collect_spec frags m hf, collect_spec frags _ hf]
    congr 1
    apply List.filter_congr
    intro i hi
    rw [Nat.testBit_and, hAllBit i hi]
    simp

/-- C5 witness: with the three-layer enumeration, the mask `14` has bit 1
(`Decals`), bit 2 (`Foliage`) and the undefined bit 3 set; the undefined bit
contributes nothing. -/
theorem c5_witness :
    collectLayers ["Buildings", "Decals", "Foliage"] 14 =
      ((List.range (["Buildings", "Decals", "Foliage"] : List String).length).filter
        (fun i => (14 : Nat).testBit i &&
          (allLayersMask ["Buildings", "Decals", "Foliage"]).testBit i)).map
        (fun i => (["Buildings", "Decals", "Foliage"] : List String).getD i "Invalid") ∧
    collectLayers ["Buildings", "Decals", "Foliage"] 14 =
      collectLayers ["Buildings", "Decals", "Foliage"]
        (14 &&& allLayersMask ["Buildings", "Decals", "Foliage"]) :=
  c5_bit_walk_collects_defined_bits ["Buildings", "Decals", "Foliage"] 14 (by decide)

/-- C6: the matching pass appends to the output exactly those known sub-levels
whose short name (last path component) contains at least one collected layer
fragment; each matching sub-level is emitted once (the inner loop breaks at
the first matching fragment) and the output preserves the order of the known
sub-level list. -/
theorem c6_matching_pass_filter_map (frags levels : List String) (m : Nat) :
    ConvertMapLayerMaskToMapNames frags levels m [] =
      (levels.filter
        (fun l => (collectLayers frags m).any
          (fun layer => ueContains (shortName l) layer))).map shortName := by
  simpa using convert_eq frags levels m []

/-- C7 counterexample: with the one-layer enumeration `["Decals"]` and the
known sub-level list `["/Game/Town01_Decals"]`, the name of every descriptor
contains a layer fragment, yet `resolve(All, S)` is the list of short names
`["Town01_Decals"]`, not `S` itself. -/
theorem c7_counterexample :
    ueContains (shortName "/Game/Town01_Decals") "Decals" = true ∧
    ueContains "/Game/Town01_Decals" "Decals" = true ∧
    collectLayers ["Decals"] (allLayersMask ["Decals"]) = ["Decals"] ∧
    ConvertMapLayerMaskToMapNames ["Decals"] ["/Game/Town01_Decals"]
      (allLayersMask ["Decals"]) [] ≠ ["/Game/Town01_Decals"] := by decide

/-- C7 amended: `resolve(0, S)` is empty, and `resolve(All, S)` is the list of
short names of `S` whenever the short name of every descriptor contains at least
one layer fragment; in particular it equals `S` itself when moreover every
name of every descriptor is its own short name (no path separators). -/
theorem c7_resolve_zero_and_all (frags S : List String) (hf : 0 < frags.length)
    (hmatch : ∀ l ∈ S, frags.any (fun f => ueContains (shortName l) f) = true) :
    ConvertMapLayerMaskToMapNames frags S 0 [] = [] ∧
    ConvertMapLayerMaskToMapNames frags S (allLayersMask frags) [] = S.map shortName ∧
    ((∀ l ∈ S, shortName l = l) →
      ConvertMapLayerMaskToMapNames frags S (allLayersMask frags) [] = S) := by
  have hc0 : collectLayers frags 0 = [] := by
    rw [collect_spec frags 0 hf]
    simp [Nat.zero_testBit]
  have hcAll : collectLayers frags (allLayersMask frags) = frags := by
    rw [collect_spec frags _ hf]
    have hb : ∀ i ∈ List.range frags.length,
        ((allLayersMask frags).testBit i) = (fun _ => true) i := by
      intro i hi
      rw [allLayersMask, Nat.testBit_two_pow_sub_one]
      simpa using List.mem_range.1 hi
    rw [List.filter_congr hb, List.filter_true]
    exact map_getD_range frags "Invalid"
  have hAll : ConvertMapLayerMaskToMapNames frags S (allLayersMask frags) [] = S.map shortName := by
    have h := convert_eq frags S (allLayersMask frags) []
    rw [h, hcAll]
    have hfilter : (S.filter (fun l => frags.any (fun layer => ueContains (shortName l) layer))) = S :=
      List.filter_eq_self.2 hmatch
    rw [hfilter]
    simp
  refine ⟨?_, hAll, ?_⟩
  · have h := convert_eq frags S 0 []
    rw [h, hc0]
    simp
  · intro hid
    rw [hAll]
    have : S.map shortName = S.map id := List.map_congr_left (by simpa using hid)
    rw [this, List.map_id]

/-- C7 witness: concrete resolution with the enumeration `["Decals"]` over the
path-free sub-level list `["Town01_Decals"]`. -/
theorem c7_witness :
    ConvertMapLayerMaskToMapNames ["Decals"] ["Town01_Decals"] 0 [] = [] ∧
    ConvertMapLayerMaskToMapNames ["Decals"] ["Town01_Decals"]
      (allLayersMask ["Decals"]) [] = (["Town01_Decals"] : List String).map shortName ∧
    ((∀ l ∈ (["Town01_Decals"] : List String), shortName l = l) →
      ConvertMapLayerMaskToMapNames ["Decals"] ["Town01_Decals"]
        (allLayersMask ["Decals"]) [] = ["Town01_Decals"]) :=
  c7_resolve_zero_and_all ["Decals"] ["Town01_Decals"] (by decide) (by decide)

/-- C10: the matching pass appends to the caller-supplied array without clearing
it, so its output is that array followed by the resolution from an empty
array, and equals the plain resolution exactly when the caller passed an empty
array; `LoadMapLayer` and `UnLoadMapLayer` pass a freshly constructed empty
array, so their pending counters equal the size of the resolved set. -/
theorem c10_append_only_and_counter_sizes (frags levels : List String) (m : Nat)
    (out : List String) (s : GameMode) :
    ConvertMapLayerMaskToMapNames frags levels m out =
      out ++ ConvertMapLayerMaskToMapNames frags levels m [] ∧
    (ConvertMapLayerMaskToMapNames frags levels m out =
      ConvertMapLayerMaskToMapNames frags levels m [] ↔ out = []) ∧
    (LoadMapLayer frags levels m s).PendingLevelsToLoad =
      ((ConvertMapLayerMaskToMapNames frags levels m []).length : Int) ∧
    (UnLoadMapLayer frags levels m s).PendingLevelsToUnLoad =
      ((ConvertMapLayerMaskToMapNames frags levels m []).length : Int) := by
  have h1 := convert_eq frags levels m out
  have h2 := convert_eq frags levels m []
  refine ⟨?_, ?_, rfl, rfl⟩
  · rw [h1, h2]
    simp
  · rw [h1, h2]
    simp [List.append_left_eq_self]

/-- C8 counterexample: a request whose resolution is empty does not leave the
pending-load counter unchanged — it overwrites it with 0 (here from 5). -/
theorem c8_counterexample :
    ConvertMapLayerMaskToMapNames ["Decals"] ["Town01_Decals"] 0 [] = [] ∧
    (LoadMapLayer ["Decals"] ["Town01_Decals"] 0
      { initialState with PendingLevelsToLoad := 5 }).PendingLevelsToLoad = 0 ∧
    ({ initialState with PendingLevelsToLoad := 5 } : GameMode).PendingLevelsToLoad = 5 := by
  decide

/-- C8 amended: when the resolution is empty, `LoadMapLayer` issues no
asynchronous streaming operation and changes nothing except the pending-load
counter, which it overwrites with 0 (so it is left unchanged exactly when it
was already 0). -/
theorem c8_empty_resolution_no_async_work (frags levels : List String) (m : Nat)
    (s : GameMode) (h : ConvertMapLayerMaskToMapNames frags levels m [] = []) :
    (LoadMapLayer frags levels m s).PendingLevelsToLoad = 0 ∧
    (LoadMapLayer frags levels m s).issuedLoads = s.issuedLoads ∧
    (LoadMapLayer frags levels m s).PendingLevelsToUnLoad = s.PendingLevelsToUnLoad ∧
    (LoadMapLayer frags levels m s).ReadyToRegisterObjects = s.ReadyToRegisterObjects ∧
    (LoadMapLayer frags levels m s).registerCalls = s.registerCalls ∧
    (LoadMapLayer frags levels m s).tagCalls = s.tagCalls ∧
    (LoadMapLayer frags levels m s).issuedUnloads = s.issuedUnloads := by
  unfold LoadMapLayer
  rw [h]
  exact ⟨rfl, by simp, rfl, rfl, rfl, rfl, rfl⟩

/-- C8 witness: the empty mask resolves to nothing and the request leaves the
counter at 0 and issues no work. -/
theorem c8_witness :
    (LoadMapLayer ["Decals"] ["Town01_Decals"] 0 initialState).PendingLevelsToLoad = 0 ∧
    (LoadMapLayer ["Decals"] ["Town01_Decals"] 0 initialState).issuedLoads =
      initialState.issuedLoads :=
  ⟨(c8_empty_resolution_no_async_work ["Decals"] ["Town01_Decals"] 0 initialState (by decide)).1,
   (c8_empty_resolution_no_async_work ["Decals"] ["Town01_Decals"] 0 initialState (by decide)).2.1⟩

end CarlaGameMode

namespace CarlaGameMode

/-- C1: for every load batch resolving to `N ≥ 1` sub-levels issued with the
ready gate set, the register-and-tag pass runs exactly once, on the completion
callback that brings `PendingLevelsToLoad` from 1 to 0 (the `N`-th of the
indistinguishable completion callbacks of the batch), and never while the counter
is still positive. -/
theorem c1_registerAndTag_exactly_once_per_batch
    (frags levels : List String) (m : Nat) (s0 : GameMode) (N : Nat)
    (hready : s0.ReadyToRegisterObjects = true)
    (hN : (ConvertMapLayerMaskToMapNames frags levels m []).length = N)
    (hpos : 1 ≤ N) :
    ((runEvents (LoadMapLayer frags levels m s0) (List.replicate N .load)).registerCalls
        = s0.registerCalls + 1 ∧
     (runEvents (LoadMapLayer frags levels m s0) (List.replicate N .load)).tagCalls
        = s0.tagCalls + 1 ∧
     (runEvents (LoadMapLayer frags levels m s0) (List.replicate N .load)).PendingLevelsToLoad
        = 0) ∧
    (∀ k, k < N →
      (runEvents (LoadMapLayer frags levels m s0) (List.replicate k .load)).registerCalls
        = s0.registerCalls ∧
      (runEvents (LoadMapLayer frags levels m s0) (List.replicate k .load)).tagCalls
        = s0.tagCalls ∧
      0 < (runEvents (LoadMapLayer frags levels m s0)
            (List.replicate k .load)).PendingLevelsToLoad) := by
  have hr : (LoadMapLayer frags levels m s0).ReadyToRegisterObjects = true := hready
  have hp : (LoadMapLayer frags levels m s0).PendingLevelsToLoad = (N : Int) := by
    show ((ConvertMapLayerMaskToMapNames frags levels m []).length : Int) = (N : Int)
    rw [hN]
  constructor
  · exact runLoads_settle (LoadMapLayer frags levels m s0) N hr hp hpos
  · intro k hk
    have h := runLoads_lt k (LoadMapLayer frags levels m s0) N hr hp hk
    exact ⟨h.2.1, h.2.2.1, by rw [h.1]; omega⟩

/-- C1 witness: the scenario of the spec — the mask selecting Decals and Foliage over the three
known Town01 sub-levels resolves to two names; with the gate set, both
completions settle the batch and the register-and-tag pass runs exactly once,
and not after the first completion alone. -/
theorem c1_witness :
    (runEvents (LoadMapLayer ["Buildings", "Decals", "Foliage"]
        ["/Game/Maps/Town01_Decals", "/Game/Maps/Town01_Foliage", "/Game/Maps/Town01_Buildings"]
        6 { initialState with ReadyToRegisterObjects := true })
      (List.replicate 2 .load)).registerCalls = 1 ∧
    (runEvents (LoadMapLayer ["Buildings", "Decals", "Foliage"]
        ["/Game/Maps/Town01_Decals", "/Game/Maps/Town01_Foliage", "/Game/Maps/Town01_Buildings"]
        6 { initialState with ReadyToRegisterObjects := true })
      (List.replicate 1 .load)).registerCalls = 0 := by
  have h := c1_registerAndTag_exactly_once_per_batch
    ["Buildings", "Decals", "Foliage"]
    ["/Game/Maps/Town01_Decals", "/Game/Maps/Town01_Foliage", "/Game/Maps/Town01_Buildings"]
    6 { initialState with ReadyToRegisterObjects := true } 2 rfl (by decide) (by decide)
  exact ⟨h.1.1, (h.2 1 (by decide)).1⟩

/-- C2 counterexample: a spurious completion callback arriving when the
corresponding counter is already 0 drives the counter to `-1` — there is no
floor at 0 in the code. -/
theorem c2_counterexample :
    (OnLoadStreamLevel
      { initialState with ReadyToRegisterObjects := true }).PendingLevelsToLoad = -1 ∧
    (OnUnloadStreamLevel
      { initialState with ReadyToRegisterObjects := true }).PendingLevelsToUnLoad = -1 := by
  decide

/-- C2 amended: the completion callbacks decrement their counters without any
floor, so a spurious callback arriving when the counter is at or below 0
drives it negative; because the registration check requires the counter to
equal exactly 0, such a callback triggers no registration or tagging pass. -/
theorem c2_spurious_completion_no_second_registration (s : GameMode)
    (hl : s.PendingLevelsToLoad ≤ 0) (hu : s.PendingLevelsToUnLoad ≤ 0) :
    ((OnLoadStreamLevel s).PendingLevelsToLoad = s.PendingLevelsToLoad - 1 ∧
     (OnLoadStreamLevel s).PendingLevelsToLoad < 0 ∧
     (OnLoadStreamLevel s).registerCalls = s.registerCalls ∧
     (OnLoadStreamLevel s).tagCalls = s.tagCalls) ∧
    ((OnUnloadStreamLevel s).PendingLevelsToUnLoad = s.PendingLevelsToUnLoad - 1 ∧
     (OnUnloadStreamLevel s).PendingLevelsToUnLoad < 0 ∧
     (OnUnloadStreamLevel s).registerCalls = s.registerCalls ∧
     (OnUnloadStreamLevel s).tagCalls = s.tagCalls) := by
  have h1 := OnLoad_pending s
  have h2 := OnLoad_no_fire s (by omega)
  have h3 := OnUnload_pending s
  have h4 := OnUnload_no_fire s (by omega)
  exact ⟨⟨h1, by omega, h2.1, h2.2⟩, ⟨h3, by omega, h4.1, h4.2⟩⟩

/-- C2 witness: spurious completions on the idle ready state decrement the
counters to `-1` and trigger nothing. -/
theorem c2_witness :
    ((OnLoadStreamLevel { initialState with ReadyToRegisterObjects := true }).PendingLevelsToLoad
        = ({ initialState with ReadyToRegisterObjects := true } : GameMode).PendingLevelsToLoad - 1 ∧
     (OnLoadStreamLevel { initialState with ReadyToRegisterObjects := true }).PendingLevelsToLoad < 0 ∧
     (OnLoadStreamLevel { initialState with ReadyToRegisterObjects := true }).registerCalls
        = ({ initialState with ReadyToRegisterObjects := true } : GameMode).registerCalls ∧
     (OnLoadStreamLevel { initialState with ReadyToRegisterObjects := true }).tagCalls
        = ({ initialState with ReadyToRegisterObjects := true } : GameMode).tagCalls) ∧
    ((OnUnloadStreamLevel { initialState with ReadyToRegisterObjects := true }).PendingLevelsToUnLoad
        = ({ initialState with ReadyToRegisterObjects := true } : GameMode).PendingLevelsToUnLoad - 1 ∧
     (OnUnloadStreamLevel { initialState with ReadyToRegisterObjects := true }).PendingLevelsToUnLoad < 0 ∧
     (OnUnloadStreamLevel { initialState with ReadyToRegisterObjects := true }).registerCalls
        = ({ initialState with ReadyToRegisterObjects := true } : GameMode).registerCalls ∧
     (OnUnloadStreamLevel { initialState with ReadyToRegisterObjects := true }).tagCalls
        = ({ initialState with ReadyToRegisterObjects := true } : GameMode).tagCalls) :=
  c2_spurious_completion_no_second_registration
    { initialState with ReadyToRegisterObjects := true } (by decide) (by decide)

/-- C3: `BeginPlay` raises the ready gate; if at that moment the pending-load
counter is 0 (the initial batch resolved to nothing), it immediately performs
one register pass together with the tagging pass, i.e. registration fires
exactly once immediately upon the readiness signal; with loads still pending,
no registration happens inside `BeginPlay`. -/
theorem c3_begin_play_sets_ready_and_registers (frags levels : List String)
    (m : Nat) (s : GameMode) :
    (BeginPlay frags levels m s).ReadyToRegisterObjects = true ∧
    (ConvertMapLayerMaskToMapNames frags levels m [] = [] →
      (BeginPlay frags levels m s).registerCalls = s.registerCalls + 1 ∧
      (BeginPlay frags levels m s).tagCalls = s.tagCalls + 1) ∧
    (ConvertMapLayerMaskToMapNames frags levels m [] ≠ [] →
      (BeginPlay frags levels m s).registerCalls = s.registerCalls ∧
      (BeginPlay frags levels m s).tagCalls = s.tagCalls + 1) := by
  refine ⟨?_, ?_, ?_⟩
  · simp only [BeginPlay]
    split <;> rfl
  · intro h
    simp only [BeginPlay]
    rw [if_pos]
    · exact ⟨rfl, rfl⟩
    · refine ⟨rfl, ?_⟩
      show ((ConvertMapLayerMaskToMapNames frags levels m []).length : Int) = 0
      rw [h]
      rfl
  · intro h
    simp only [BeginPlay]
    rw [if_neg]
    · exact ⟨rfl, rfl⟩
    · intro hc
      have hz : ((ConvertMapLayerMaskToMapNames frags levels m []).length : Int) = 0 := hc.2
      have hlen : (ConvertMapLayerMaskToMapNames frags levels m []).length = 0 := by
        exact_mod_cast hz
      exact h (List.length_eq_zero.1 hlen)

/-- C3 witness: with no matching sub-level, the initial batch is empty and
`BeginPlay` both raises the gate and performs the registration pass at once. -/
theorem c3_witness :
    (BeginPlay ["Decals"] [] 0 initialState).ReadyToRegisterObjects = true ∧
    (BeginPlay ["Decals"] [] 0 initialState).registerCalls = 1 ∧
    (BeginPlay ["Decals"] [] 0 initialState).tagCalls = 1 := by
  have h := c3_begin_play_sets_ready_and_registers ["Decals"] [] 0 initialState
  have h2 := h.2.1 (by decide)
  exact ⟨h.1, h2.1, h2.2⟩

/-- C4: when the unload completion callbacks bring the pending-unload counter
to 0 with the ready gate set, exactly one registration pass runs and no
tagging call is made on the unload path; no registration happens before the
completions of the batch are exhausted. -/
theorem c4_unload_settles_with_register_only (s : GameMode) (N : Nat)
    (hready : s.ReadyToRegisterObjects = true)
    (hN : s.PendingLevelsToUnLoad = (N : Int)) (hpos : 1 ≤ N) :
    ((runEvents s (List.replicate N .unload)).registerCalls = s.registerCalls + 1 ∧
     (runEvents s (List.replicate N .unload)).tagCalls = s.tagCalls ∧
     (runEvents s (List.replicate N .unload)).PendingLevelsToUnLoad = 0) ∧
    (∀ k, k < N →
      (runEvents s (List.replicate k .unload)).registerCalls = s.registerCalls ∧
      (runEvents s (List.replicate k .unload)).tagCalls = s.tagCalls) :=
  ⟨runUnloads_settle s N hready hN hpos,
   fun k hk => ⟨(runUnloads_lt k s N hready hN hk).2.1,
                (runUnloads_lt k s N hready hN hk).2.2.1⟩⟩

/-- C4 witness: the scenario of the spec — an unload request of three sub-levels;
after the three completions exactly one registration pass has run and no
tagging call was made. -/
theorem c4_witness :
    ((runEvents { initialState with ReadyToRegisterObjects := true, PendingLevelsToUnLoad := 3 }
        (List.replicate 3 .unload)).registerCalls
      = ({ initialState with ReadyToRegisterObjects := true, PendingLevelsToUnLoad := 3 } :
          GameMode).registerCalls + 1 ∧
     (runEvents { initialState with ReadyToRegisterObjects := true, PendingLevelsToUnLoad := 3 }
        (List.replicate 3 .unload)).tagCalls
      = ({ initialState with ReadyToRegisterObjects := true, PendingLevelsToUnLoad := 3 } :
          GameMode).tagCalls ∧
     (runEvents { initialState with ReadyToRegisterObjects := true, PendingLevelsToUnLoad := 3 }
        (List.replicate 3 .unload)).PendingLevelsToUnLoad = 0) ∧
    (∀ k, k < 3 →
      (runEvents { initialState with ReadyToRegisterObjects := true, PendingLevelsToUnLoad := 3 }
        (List.replicate k .unload)).registerCalls
        = ({ initialState with ReadyToRegisterObjects := true, PendingLevelsToUnLoad := 3 } :
            GameMode).registerCalls ∧
      (runEvents { initialState with ReadyToRegisterObjects := true, PendingLevelsToUnLoad := 3 }
        (List.replicate k .unload)).tagCalls
        = ({ initialState with ReadyToRegisterObjects := true, PendingLevelsToUnLoad := 3 } :
            GameMode).tagCalls) :=
  c4_unload_settles_with_register_only
    { initialState with ReadyToRegisterObjects := true, PendingLevelsToUnLoad := 3 }
    3 rfl rfl (by decide)

/-- C9: loads and unloads are independent — a load completion callback leaves
the pending-unload counter and issued unloads untouched, an unload completion
callback leaves the pending-load counter and issued loads untouched, and each
request writes only the counter and issue list of its own direction, with no
registration or tagging at request time. -/
theorem c9_direction_independence (s : GameMode) (frags levels : List String)
    (m : Nat) :
    ((OnLoadStreamLevel s).PendingLevelsToUnLoad = s.PendingLevelsToUnLoad ∧
     (OnLoadStreamLevel s).issuedUnloads = s.issuedUnloads) ∧
    ((OnUnloadStreamLevel s).PendingLevelsToLoad = s.PendingLevelsToLoad ∧
     (OnUnloadStreamLevel s).issuedLoads = s.issuedLoads) ∧
    ((LoadMapLayer frags levels m s).PendingLevelsToUnLoad = s.PendingLevelsToUnLoad ∧
     (LoadMapLayer frags levels m s).issuedUnloads = s.issuedUnloads ∧
     (LoadMapLayer frags levels m s).registerCalls = s.registerCalls ∧
     (LoadMapLayer frags levels m s).tagCalls = s.tagCalls) ∧
    ((UnLoadMapLayer frags levels m s).PendingLevelsToLoad = s.PendingLevelsToLoad ∧
     (UnLoadMapLayer frags levels m s).issuedLoads = s.issuedLoads ∧
     (UnLoadMapLayer frags levels m s).registerCalls = s.registerCalls ∧
     (UnLoadMapLayer frags levels m s).tagCalls = s.tagCalls) :=
  ⟨⟨(OnLoad_unload_frame s).1, (OnLoad_unload_frame s).2.2⟩,
   ⟨(OnUnload_load_frame s).1, (OnUnload_load_frame s).2.1⟩,
   ⟨rfl, rfl, rfl, rfl⟩,
   ⟨rfl, rfl, rfl, rfl⟩⟩

end CarlaGameMode
